import Mathlib

/-!
Shallow embedding of `src/components/WorldMap.jsx` (the single source file of
the repository): the polygon-to-primitive pipeline (`drawPolygon` and the
GeoJSON feature walk), the travel-arc path generator, the arc fragment
shader's glow rule, the animation clock wrap, the resize handler's camera
update, and the renderer pixel-ratio clamp.

Numeric values are embedded as exact rationals (ℚ), and as reals (ℝ) where
the source uses `Math.sin`.  Coordinate pairs are embedded as `List ℚ`
(a JSON array of numbers); `Array.isArray` is therefore always true for a
ring element in this model, and the source's validity guard
`!Array.isArray(p) || p.length < 2` reduces to the length test.
-/

namespace WorldMap

/-- `project = ([lon, lat]) => new THREE.Vector2(lon, lat)`: the identity
projection, reading the first two components of a coordinate pair. -/
def project (p : List ℚ) : ℚ × ℚ := (p.headI, p.tail.headI)

/-- The guard applied to each coordinate pair before it is drawn:
`Array.isArray(p) && p.length >= 2` (isArray is always true here). -/
def validPair (p : List ℚ) : Bool := decide (2 ≤ p.length)

/-- A path command recorded on the `THREE.Shape` while walking the ring:
`shape.moveTo(v.x, v.y)` for index 0, `shape.lineTo(v.x, v.y)` otherwise. -/
inductive Cmd
  | moveTo (v : ℚ × ℚ)
  | lineTo (v : ℚ × ℚ)
deriving DecidableEq, Repr

/-- The commands issued on the shape by
`ring.forEach((p, i) => { if (!Array.isArray(p) || p.length < 2) return;
  const v = project(p); if (i === 0) shape.moveTo(v.x, v.y) else
  shape.lineTo(v.x, v.y) })`.
Note the index `i` is the original ring index, so an invalid pair at index 0
means no `moveTo` is ever issued. -/
def shapeCmds (ring : List (List ℚ)) : List Cmd :=
  ring.enum.filterMap fun ip =>
    if validPair ip.2 then
      some (if ip.1 = 0 then Cmd.moveTo (project ip.2) else Cmd.lineTo (project ip.2))
    else none

/-- The outline points:
`ring.filter(p => Array.isArray(p) && p.length >= 2)
     .map(p => { const v = project(p); return new THREE.Vector3(v.x, v.y, 2) })`. -/
def outlinePts (ring : List (List ℚ)) : List (ℚ × ℚ × ℚ) :=
  (ring.filter validPair).map fun p => ((project p).1, (project p).2, 2)

/-- A primitive added to `mapGroup`.  The shadow mesh carries the constant
offset (y−4, z−2) and scale (1.03, 1.03, 1) applied in the source; the fill
mesh sits at the true position; the outline is a polyline at z = 2. -/
inductive Prim
  | shadow (cmds : List Cmd)
  | fill (cmds : List Cmd)
  | outline (pts : List (ℚ × ℚ × ℚ))
deriving DecidableEq, Repr

def Prim.isShadow : Prim → Bool
  | .shadow _ => true
  | _ => false

def Prim.isFill : Prim → Bool
  | .fill _ => true
  | _ => false

def Prim.isOutline : Prim → Bool
  | .outline _ => true
  | _ => false

/-- `drawPolygon`: returns the primitives added to the map group for one
ring.  `if (!Array.isArray(ring) || ring.length < 3) return;` guards on the
raw ring length; the shadow and fill meshes are then added unconditionally,
and the outline polyline only when more than one valid point survives the
filter (`if (pts.length > 1)`). -/
def drawPolygon (ring : List (List ℚ)) : List Prim :=
  if ring.length < 3 then []
  else
    [Prim.shadow (shapeCmds ring), Prim.fill (shapeCmds ring)] ++
      (if 1 < (outlinePts ring).length then [Prim.outline (outlinePts ring)] else [])

/-- A GeoJSON geometry as consumed by the feature walk. -/
inductive Geometry
  | Polygon (coords : List (List (List ℚ)))
  | MultiPolygon (coords : List (List (List (List ℚ))))
deriving DecidableEq, Repr

/-- The per-feature processing in `land.features.forEach`:
a Polygon draws `g.coordinates[0]` (nothing when the coordinate array is
empty, since `drawPolygon(undefined)` returns at the isArray guard); a
MultiPolygon draws `poly[0]` of each member polygon that has one
(`Array.isArray(poly) && poly[0]`; a present first ring is an array and
hence truthy even when empty). -/
def processGeometry : Geometry → List Prim
  | .Polygon rs =>
      match rs.head? with
      | some r => drawPolygon r
      | none => []
  | .MultiPolygon ps =>
      ps.flatMap fun poly =>
        match poly.head? with
        | some r => drawPolygon r
        | none => []

/-- Keeps only the first ring of each ring-set: the part of a geometry the
feature walk can ever look at. -/
def keepOuterRings : Geometry → Geometry
  | .Polygon rs => .Polygon (rs.take 1)
  | .MultiPolygon ps => .MultiPolygon (ps.map fun poly => poly.take 1)

/-! ### Shader glow -/

/-- GLSL `clamp(x, lo, hi) = min(max(x, lo), hi)`. -/
def glslClamp (x lo hi : ℚ) : ℚ := min (max x lo) hi

/-- GLSL `smoothstep(e0, e1, x)`:
`t = clamp((x - e0)/(e1 - e0), 0, 1); t*t*(3 - 2*t)`. -/
def smoothstep (e0 e1 x : ℚ) : ℚ :=
  let t := glslClamp ((x - e0) / (e1 - e0)) 0 1
  t * t * (3 - 2 * t)

/-- The fragment shader's intensity:
`float h = smoothstep(time-0.05, time, vP);
 float t = smoothstep(time, time+0.2, vP);
 float g = h * t;` — the value multiplying both the colour and the alpha. -/
def glow (time p : ℚ) : ℚ :=
  smoothstep (time - 0.05) time p * smoothstep time (time + 0.2) p

/-! ### Animation clock -/

/-- JavaScript truncation toward zero, as used by the `%` operator. -/
def jsTrunc (q : ℚ) : ℤ := if 0 ≤ q then ⌊q⌋ else -⌊-q⌋

/-- JavaScript remainder `a % b` (sign follows the dividend). -/
def jsRem (a b : ℚ) : ℚ := a - b * (jsTrunc (a / b) : ℚ)

/-- `arcMat.uniforms.time.value = (clock.getElapsedTime() * 0.25) % 1`. -/
def animTime (elapsed : ℚ) : ℚ := jsRem (elapsed * 0.25) 1

/-! ### Camera and resize -/

def WORLD_WIDTH : ℚ := 360
def WORLD_HEIGHT : ℚ := 180

/-- The orthographic camera's frustum bounds. -/
structure Camera where
  left : ℚ
  right : ℚ
  top : ℚ
  bottom : ℚ
  near : ℚ
  far : ℚ
deriving DecidableEq, Repr

/-- `new THREE.OrthographicCamera(-WORLD_WIDTH*aspect*0.5, WORLD_WIDTH*aspect*0.5,
WORLD_HEIGHT*0.5, -WORLD_HEIGHT*0.5, -100, 100)` with
`aspect = window.innerWidth / window.innerHeight`. -/
def initialCamera (w h : ℚ) : Camera :=
  { left := -WORLD_WIDTH * (w / h) * 0.5
    right := WORLD_WIDTH * (w / h) * 0.5
    top := WORLD_HEIGHT * 0.5
    bottom := -WORLD_HEIGHT * 0.5
    near := -100
    far := 100 }

/-- The resize handler: recomputes `a = window.innerWidth/window.innerHeight`
and assigns `camera.left = -WORLD_WIDTH * a * 0.5` and
`camera.right = WORLD_WIDTH * a * 0.5`; no other bound is touched. -/
def resize (c : Camera) (w h : ℚ) : Camera :=
  { c with left := -WORLD_WIDTH * (w / h) * 0.5, right := WORLD_WIDTH * (w / h) * 0.5 }

/-! ### Renderer pixel ratio -/

/-- `renderer.setPixelRatio(Math.min(window.devicePixelRatio, 2))`. -/
def appliedPixelRatio (d : ℚ) : ℚ := min d 2

/-! ### Travel arc -/

/-- `THREE.MathUtils.lerp(x, y, t) = x + (y - x) * t`. -/
def lerp (x y t : ℝ) : ℝ := x + (y - x) * t

def arcSteps : ℕ := 160

/-- `const start = project([10, 45])`. -/
def arcStart : ℝ × ℝ := (10, 45)

/-- `const end = project([120, 25])`. -/
def arcEnd : ℝ × ℝ := (120, 25)

/-- The vertical lift added to the interpolated y: `Math.sin(t * Math.PI) * 18`. -/
noncomputable def arcLift (t : ℝ) : ℝ := Real.sin (t * Real.pi) * 18

/-- The sample position pushed for parameter t:
`new THREE.Vector3(lerp(start.x, end.x, t), lerp(start.y, end.y, t) + sin(t*π)*18, 6)`. -/
noncomputable def arcPoint (t : ℝ) : ℝ × ℝ × ℝ :=
  (lerp arcStart.1 arcEnd.1 t, lerp arcStart.2 arcEnd.2 t + arcLift t, 6)

/-- `arcPts`: the loop `for (let i = 0; i <= arcSteps; i++)` with `t = i / arcSteps`. -/
noncomputable def arcPts : List (ℝ × ℝ × ℝ) :=
  (List.range (arcSteps + 1)).map fun i : ℕ => arcPoint ((i : ℝ) / (arcSteps : ℝ))

/-- `arcProg`: the progress value pushed alongside each sample, the exact
rational `i / arcSteps`. -/
def arcProg : List ℚ :=
  (List.range (arcSteps + 1)).map fun i : ℕ => (i : ℚ) / (arcSteps : ℚ)

end WorldMap

namespace WorldMap

/-! ## Claim theorems -/

/-- C1, counterexample: the ring `[[0,0],[5],[]]` has only one valid
coordinate pair (fewer than 3), yet `drawPolygon` adds a shadow and a fill
mesh, because the guard tests the raw ring length (3 here), not the number
of valid pairs. -/
theorem C1_counterexample :
    ((([[0, 0], [5], []] : List (List ℚ)).filter validPair).length < 3) ∧
      (drawPolygon [[0, 0], [5], []]).any Prim.isShadow = true ∧
      (drawPolygon [[0, 0], [5], []]).any Prim.isFill = true := by
  decide

/-- C1, amended: for every ring whose raw element count is below 3
(coordinate pairs counted whether valid or not), `drawPolygon` produces no
primitive at all. -/
theorem drawPolygon_short_ring_no_prims (ring : List (List ℚ))
    (h : ring.length < 3) : drawPolygon ring = [] := by
  simp [drawPolygon, h]

/-- C1 witness: the amended theorem applied to a concrete two-point ring. -/
theorem drawPolygon_short_ring_no_prims_witness :
    ([[0, 0], [1, 1]] : List (List ℚ)).length < 3 ∧
      drawPolygon [[0, 0], [1, 1]] = [] :=
  ⟨by decide, drawPolygon_short_ring_no_prims [[0, 0], [1, 1]] (by decide)⟩

/-- C10: the applied pixel ratio `min(devicePixelRatio, 2)` never exceeds 2,
and equals the device pixel ratio whenever that is at most 2. -/
theorem pixelRatio_clamped (d : ℚ) (h : 0 ≤ d) :
    appliedPixelRatio d ≤ 2 ∧ (d ≤ 2 → appliedPixelRatio d = d) := by
  constructor
  · exact min_le_right d 2
  · intro hd
    exact min_eq_left hd

/-- C10 witness: the pixel-ratio theorem at device ratio 3/2. -/
theorem pixelRatio_clamped_witness :
    (0 : ℚ) ≤ 3 / 2 ∧ appliedPixelRatio (3 / 2) ≤ 2 ∧
      ((3 / 2 : ℚ) ≤ 2 → appliedPixelRatio (3 / 2) = 3 / 2) :=
  ⟨by norm_num, pixelRatio_clamped (3 / 2) (by norm_num)⟩

/-- C4: for every non-negative elapsed time, the wrapped uniform
`(elapsed * 0.25) % 1` lies in `[0, 1)`. -/
theorem animTime_mem_Ico (e : ℚ) (h : 0 ≤ e) :
    0 ≤ animTime e ∧ animTime e < 1 := by
  have ha : (0 : ℚ) ≤ e * 0.25 := by positivity
  have htr : jsTrunc (e * 0.25 / 1) = ⌊e * 0.25⌋ := by
    rw [div_one, jsTrunc, if_pos ha]
  have : animTime e = Int.fract (e * 0.25) := by
    rw [animTime, jsRem, htr, Int.fract]
    ring
  rw [this]
  exact ⟨Int.fract_nonneg _, Int.fract_lt_one _⟩

/-- C4 witness: the wrap theorem at elapsed time 10 seconds. -/
theorem animTime_mem_Ico_witness :
    (0 : ℚ) ≤ 10 ∧ 0 ≤ animTime 10 ∧ animTime 10 < 1 :=
  ⟨by norm_num, animTime_mem_Ico 10 (by norm_num)⟩

/-- C5: the resize handler keeps the vertical bounds at exactly +90 / −90,
rescales the horizontal bounds to ∓180·(w/h), and modifies no other bound
(near and far are untouched); the initial camera indeed starts with
top = 90 and bottom = −90. -/
theorem resize_bounds (c : Camera) (w h : ℚ) (hh : 0 < h)
    (htop : c.top = 90) (hbot : c.bottom = -90) :
    (resize c w h).top = 90 ∧ (resize c w h).bottom = -90 ∧
      (resize c w h).left = -180 * (w / h) ∧ (resize c w h).right = 180 * (w / h) ∧
      (resize c w h).near = c.near ∧ (resize c w h).far = c.far ∧
      (initialCamera w h).top = 90 ∧ (initialCamera w h).bottom = -90 := by
  refine ⟨htop, hbot, ?_, ?_, rfl, rfl, ?_, ?_⟩ <;>
    simp [resize, initialCamera, WORLD_WIDTH, WORLD_HEIGHT] <;> ring

/-- C5 witness: the resize theorem for the camera built at 800×600, resized
to 1000×500. -/
theorem resize_bounds_witness :
    (0 : ℚ) < 500 ∧ (initialCamera 800 600).top = 90 ∧
      (initialCamera 800 600).bottom = -90 ∧
      (resize (initialCamera 800 600) 1000 500).top = 90 ∧
      (resize (initialCamera 800 600) 1000 500).bottom = -90 ∧
      (resize (initialCamera 800 600) 1000 500).left = -180 * (1000 / 500) ∧
      (resize (initialCamera 800 600) 1000 500).right = 180 * (1000 / 500) ∧
      (resize (initialCamera 800 600) 1000 500).near = (initialCamera 800 600).near ∧
      (resize (initialCamera 800 600) 1000 500).far = (initialCamera 800 600).far ∧
      (initialCamera 1000 500).top = 90 ∧ (initialCamera 1000 500).bottom = -90 :=
  ⟨by norm_num, by norm_num [initialCamera, WORLD_HEIGHT],
   by norm_num [initialCamera, WORLD_HEIGHT],
   resize_bounds (initialCamera 800 600) 1000 500 (by norm_num)
     (by norm_num [initialCamera, WORLD_HEIGHT])
     (by norm_num [initialCamera, WORLD_HEIGHT])⟩

end WorldMap

namespace WorldMap

/-- A GLSL smoothstep with a positive edge span is 0 at or below the lower
edge. -/
theorem smoothstep_of_le {e0 e1 x : ℚ} (h : x ≤ e0) (hd : 0 < e1 - e0) :
    smoothstep e0 e1 x = 0 := by
  have hx : (x - e0) / (e1 - e0) ≤ 0 :=
    div_nonpos_of_nonpos_of_nonneg (by linarith) (le_of_lt hd)
  simp only [smoothstep, glslClamp]
  rw [max_eq_right hx, min_eq_left (by norm_num : (0 : ℚ) ≤ 1)]
  ring

/-- A GLSL smoothstep with a positive edge span is 1 at or above the upper
edge. -/
theorem smoothstep_of_ge {e0 e1 x : ℚ} (h : e1 ≤ x) (hd : 0 < e1 - e0) :
    smoothstep e0 e1 x = 1 := by
  have hx : (1 : ℚ) ≤ (x - e0) / (e1 - e0) := by
    rw [le_div_iff₀ hd]
    linarith
  simp only [smoothstep, glslClamp]
  rw [max_eq_left (le_trans (by norm_num) hx), min_eq_right hx]
  ring

/-- C2, counterexample: at time 3/10, every point past the head of the
window stays at full intensity instead of fading: the second smoothstep is
a rise, not a fall, so with 3/10 + 0.2 < 9/10 < 1 the intensity at
progress 9/10 and at the end of the arc is 1, not 0, and across the alleged
fall interval (time, time + 0.2) the intensity increases (1/2 at
progress 4/10, 1 at progress 1/2). -/
theorem C2_counterexample :
    (3 / 10 : ℚ) + 0.2 < 9 / 10 ∧
      glow (3 / 10) (9 / 10) = 1 ∧ glow (3 / 10) 1 = 1 ∧
      glow (3 / 10) (4 / 10) = 1 / 2 ∧ glow (3 / 10) (1 / 2) = 1 := by
  norm_num [glow, smoothstep, glslClamp]

/-- C2, amended: the per-pixel intensity is the product of two smoothstep
rises, `smoothstep(time-0.05, time, p) * smoothstep(time, time+0.2, p)`: it
is 0 for every progress p ≤ time (the trailing side does fade to zero) and
is 1 — not 0 — for every progress p ≥ time + 0.2; the glow is a leading-edge
reveal, not a bounded traveling window. -/
theorem glow_window (time p : ℚ) :
    (p ≤ time → glow time p = 0) ∧ (time + 0.2 ≤ p → glow time p = 1) := by
  constructor
  · intro hp
    have h2 : smoothstep time (time + 0.2) p = 0 :=
      smoothstep_of_le hp (by norm_num)
    rw [glow, h2, mul_zero]
  · intro hp
    have h1 : smoothstep (time - 0.05) time p = 1 :=
      smoothstep_of_ge (by norm_num at hp ⊢; linarith) (by norm_num)
    have h2 : smoothstep time (time + 0.2) p = 1 :=
      smoothstep_of_ge hp (by norm_num)
    rw [glow, h1, h2, mul_one]

/-- C2 witness: the amended glow theorem at time 3/10, progress 1/10
(before the window: intensity 0) and progress 9/10 (past the head:
intensity 1). -/
theorem glow_window_witness :
    ((1 / 10 : ℚ) ≤ 3 / 10 ∧ glow (3 / 10) (1 / 10) = 0) ∧
      ((3 / 10 : ℚ) + 0.2 ≤ 9 / 10 ∧ glow (3 / 10) (9 / 10) = 1) :=
  ⟨⟨by norm_num, (glow_window (3 / 10) (1 / 10)).1 (by norm_num)⟩,
   ⟨by norm_num, (glow_window (3 / 10) (9 / 10)).2 (by norm_num)⟩⟩

end WorldMap

namespace WorldMap

/-- C3: the arc generator yields exactly 161 samples; the i-th progress is
exactly i/160, so the progress sequence is strictly increasing from 0 to 1
inclusive, and the i-th position is the interpolated point `arcPoint (i/160)`
(x a lerp of the endpoint x's, y a lerp of the endpoint y's plus the
sinusoidal lift). -/
theorem arc_sampling :
    arcPts.length = 161 ∧ arcProg.length = 161 ∧
      (∀ i : ℕ, i < 161 → arcProg[i]? = some ((i : ℚ) / 160)) ∧
      List.Pairwise (· < ·) arcProg ∧
      arcProg.head? = some 0 ∧ arcProg.getLast? = some 1 ∧
      (∀ i : ℕ, i < 161 → arcPts[i]? = some (arcPoint ((i : ℝ) / 160))) := by
  have hsteps : arcSteps + 1 = 161 := rfl
  refine ⟨?_, ?_, ?_, ?_, ?_, ?_, ?_⟩
  · rw [arcPts, List.length_map, List.length_range, hsteps]
  · rw [arcProg, List.length_map, List.length_range, hsteps]
  · intro i hi
    have hi' : i < arcSteps + 1 := by omega
    rw [arcProg, List.getElem?_map, List.getElem?_range hi', Option.map_some']
    norm_num [arcSteps]
  · rw [arcProg]
    refine List.Pairwise.map _ (fun a b hab => ?_) (List.pairwise_lt_range _)
    have h160 : (0 : ℚ) < (arcSteps : ℚ) := by norm_num [arcSteps]
    exact (div_lt_div_iff_of_pos_right h160).mpr (by exact_mod_cast hab)
  · have h0 : (List.range (arcSteps + 1)).head? = some 0 := by
      rw [hsteps]
      decide
    rw [arcProg, List.head?_map, h0, Option.map_some']
    norm_num
  · rw [arcProg, List.getLast?_map, List.getLast?_range]
    rw [hsteps]
    norm_num [arcSteps]
  · intro i hi
    have hi' : i < arcSteps + 1 := by omega
    rw [arcPts, List.getElem?_map, List.getElem?_range hi', Option.map_some']
    norm_num [arcSteps]

/-- C3 witness: the sampling theorem at indices 3 and 160. -/
theorem arc_sampling_witness :
    ((3 : ℕ) < 161 ∧ arcProg[3]? = some ((3 : ℚ) / 160)) ∧
      ((160 : ℕ) < 161 ∧ arcPts[160]? = some (arcPoint ((160 : ℝ) / 160))) :=
  ⟨⟨by norm_num, arc_sampling.2.2.1 3 (by norm_num)⟩,
   ⟨by norm_num, arc_sampling.2.2.2.2.2.2 160 (by norm_num)⟩⟩

end WorldMap

namespace WorldMap

/-- C7: the arc's vertical lift `18·sin(t·π)` is exactly 0 at t = 0 and at
t = 1 — so the first and last samples take exactly the endpoint y-values —
and is exactly 18, the maximum over all t, at t = 1/2. -/
theorem arcLift_endpoints_max :
    arcLift 0 = 0 ∧ arcLift 1 = 0 ∧ arcLift (1 / 2) = 18 ∧
      (∀ t : ℝ, arcLift t ≤ 18) ∧
      (arcPoint 0).2.1 = arcStart.2 ∧ (arcPoint 1).2.1 = arcEnd.2 := by
  have h0 : arcLift 0 = 0 := by simp [arcLift]
  have h1 : arcLift 1 = 0 := by simp [arcLift]
  refine ⟨h0, h1, ?_, ?_, ?_, ?_⟩
  · rw [arcLift, show (1 / 2 : ℝ) * Real.pi = Real.pi / 2 by ring,
      Real.sin_pi_div_two]
    norm_num
  · intro t
    have hs := Real.sin_le_one (t * Real.pi)
    rw [arcLift]
    nlinarith
  · show lerp arcStart.2 arcEnd.2 0 + arcLift 0 = arcStart.2
    rw [h0, lerp]
    ring
  · show lerp arcStart.2 arcEnd.2 1 + arcLift 1 = arcEnd.2
    rw [h1, lerp]
    ring

/-- C6: a coordinate pair with fewer than 2 components is excluded from the
outline polyline, and its presence does not abort the rest of the ring: the
outline equals the outline of the ring without that pair, and every valid
pair elsewhere still contributes its projected point. -/
theorem invalid_pair_skipped (xs ys : List (List ℚ)) (p : List ℚ)
    (hp : p.length < 2) :
    outlinePts (xs ++ p :: ys) = outlinePts (xs ++ ys) ∧
      ∀ q, q ∈ xs ++ ys → validPair q = true →
        ((project q).1, (project q).2, (2 : ℚ)) ∈ outlinePts (xs ++ p :: ys) := by
  have hvp : validPair p = false := by
    simp only [validPair, decide_eq_false_iff_not]
    omega
  constructor
  · rw [outlinePts, outlinePts, List.filter_append, List.filter_append,
      List.filter_cons_of_neg (by simp [hvp])]
  · intro q hq hvq
    have hmem : q ∈ (xs ++ p :: ys).filter validPair := by
      rw [List.mem_filter]
      refine ⟨?_, hvq⟩
      rcases List.mem_append.mp hq with h | h
      · exact List.mem_append.mpr (Or.inl h)
      · exact List.mem_append.mpr (Or.inr (List.mem_cons_of_mem p h))
    exact List.mem_map.mpr ⟨q, hmem, rfl⟩

/-- C6 witness: the skip theorem on the ring `[[0,0],[5],[1,1]]` with the
one-component pair `[5]` in the middle. -/
theorem invalid_pair_skipped_witness :
    ([5] : List ℚ).length < 2 ∧
      outlinePts [[0, 0], [5], [1, 1]] = outlinePts [[0, 0], [1, 1]] ∧
      ((project [1, 1]).1, (project [1, 1]).2, (2 : ℚ)) ∈
        outlinePts [[0, 0], [5], [1, 1]] := by
  have h := invalid_pair_skipped [[0, 0]] [[1, 1]] [5] (by simp)
  exact ⟨by simp, h.1, h.2 [1, 1] (by simp) (by decide)⟩

/-- C8: only the first ring of each ring-set contributes primitives: a
geometry produces exactly the same primitive list as the geometry with all
rings at index ≥ 1 (the holes) removed. -/
theorem holes_ignored (g : Geometry) :
    processGeometry g = processGeometry (keepOuterRings g) := by
  cases g with
  | Polygon rs => cases rs <;> rfl
  | MultiPolygon ps =>
      simp only [processGeometry, keepOuterRings]
      induction ps with
      | nil => rfl
      | cons poly rest ih =>
          simp only [List.map_cons, List.flatMap_cons, ih]
          congr 1
          cases poly <;> rfl

/-- C8 witness: the first-ring theorem on a MultiPolygon whose first member
polygon carries a hole ring. -/
theorem holes_ignored_witness :
    processGeometry
        (.MultiPolygon [[[[0, 0], [4, 0], [4, 4]], [[1, 1], [2, 1], [2, 2]]]]) =
      processGeometry
        (keepOuterRings
          (.MultiPolygon [[[[0, 0], [4, 0], [4, 4]], [[1, 1], [2, 1], [2, 2]]]])) :=
  holes_ignored (.MultiPolygon [[[[0, 0], [4, 0], [4, 4]], [[1, 1], [2, 1], [2, 2]]]])

/-- C9: for every ring of length at least 3, `drawPolygon` adds a shadow
mesh and a fill mesh unconditionally — even when no coordinate pair is
valid — while the outline polyline is present exactly when at least 2 valid
coordinate pairs survive the filter. -/
theorem drawPolygon_prims (ring : List (List ℚ)) (h3 : 3 ≤ ring.length) :
    (drawPolygon ring).any Prim.isShadow = true ∧
      (drawPolygon ring).any Prim.isFill = true ∧
      ((drawPolygon ring).any Prim.isOutline = true ↔
        2 ≤ (ring.filter validPair).length) := by
  have hnot : ¬ ring.length < 3 := not_lt.mpr h3
  have hlen : (outlinePts ring).length = (ring.filter validPair).length := by
    rw [outlinePts, List.length_map]
  rw [drawPolygon, if_neg hnot]
  refine ⟨by simp [Prim.isShadow], by simp [Prim.isFill], ?_⟩
  by_cases ho : 1 < (outlinePts ring).length
  · rw [if_pos ho]
    simp only [List.any_append, List.any_cons, List.any_nil, Prim.isShadow,
      Prim.isFill, Prim.isOutline, Bool.or_false, Bool.false_or]
    rw [hlen] at ho
    constructor
    · intro _
      omega
    · intro _
      trivial
  · rw [if_neg ho]
    simp only [List.any_append, List.any_cons, List.any_nil, Prim.isShadow,
      Prim.isFill, Prim.isOutline, Bool.or_false, Bool.false_or]
    rw [hlen] at ho
    constructor
    · intro hcontr
      simp at hcontr
    · intro h2
      omega

/-- C9 witness: the primitive theorem on a ring of three valid points (all
three primitives) — the hypothesis 3 ≤ length holds by computation. -/
theorem drawPolygon_prims_witness :
    3 ≤ ([[1, 2], [3, 4], [5, 6]] : List (List ℚ)).length ∧
      (drawPolygon [[1, 2], [3, 4], [5, 6]]).any Prim.isShadow = true ∧
      (drawPolygon [[1, 2], [3, 4], [5, 6]]).any Prim.isFill = true ∧
      ((drawPolygon [[1, 2], [3, 4], [5, 6]]).any Prim.isOutline = true ↔
        2 ≤ (([[1, 2], [3, 4], [5, 6]] : List (List ℚ)).filter validPair).length) :=
  ⟨by simp, drawPolygon_prims [[1, 2], [3, 4], [5, 6]] (by simp)⟩

end WorldMap
